import Mathlib

/-!
Verification of the texture-pipeline specification of the solar_system
repository against a shallow embedding of `advanced_texture_manager.py`.

Conventions of the embedding:
* An image is a list of rows, each row a list of RGBA pixels with natural
  number channels (the source works on 8-bit channels; all operations here
  stay within naturals).
* Python floats are modelled as exact rationals.
* Calls into external libraries (numpy percentile, cv2 morphology, PIL
  ImageEnhance, OpenGL) that can raise are modelled as `Option`-valued
  parameters or explicit state: `none` models the call raising, which the
  source catches with `try/except`.
* Mutable manager state (`self.textures`, `self.processed_textures`, the
  cache directory, the set of live GL texture objects) is an explicit
  record `TMState` threaded through the operations.
-/

namespace SolarTex

/-- An RGBA pixel; channels are naturals (8-bit data in the source). -/
structure Pixel where
  r : Nat
  g : Nat
  b : Nat
  a : Nat
deriving DecidableEq, Repr

/-- An image: rows of pixels, row-major, origin top-left. -/
abbrev Image := List (List Pixel)

/-- A boolean keep/discard mask with the same layout as an image. -/
abbrev Mask := List (List Bool)

def defaultPixel : Pixel := ⟨0, 0, 0, 0⟩

/-- Pixel of a row at column `x` (default pixel when out of range). -/
def pget (row : List Pixel) (x : Nat) : Pixel := row.getD x defaultPixel

/-- Pixel of an image at row `y`, column `x`. -/
def pixelAt (img : Image) (y x : Nat) : Pixel := pget (img.getD y []) x

/-- Mask value at row `y`, column `x` (default `true` when out of range). -/
def maskAt (m : Mask) (y x : Nat) : Bool := (m.getD y []).getD x true

/-- Width of an image, like PIL `image.size[0]`: length of the first row. -/
def width (img : Image) : Nat := (img.headD []).length

/-- Association-list lookup, modelling Python dict access. -/
def lookupA {α : Type} : List (String × α) → String → Option α
  | [], _ => none
  | (k, v) :: t, key => if k = key then some v else lookupA t key

/-- Association-list update, modelling Python dict assignment
(`d[k] = v`): the new binding shadows and removes any previous one. -/
def setA {α : Type} (l : List (String × α)) (key : String) (v : α) :
    List (String × α) :=
  (key, v) :: l.filter (fun p => ¬ (p.1 = key))

/-- A deserialized cache file, modelling the pickled dict written by
`_save_preprocessed_to_cache`: fields are optional because a corrupt or
foreign pickle may lack any of them (`'image_data' not in cache_data`). -/
structure CacheData where
  image_hash : Option String
  timestamp : Option ℚ
  image_data : Option Image
deriving DecidableEq

/-- The mutable state of `AdvancedTextureManager` together with the parts
of the world it mutates: the on-disk cache directory and the set of live
OpenGL texture objects.  `glNext` is the next fresh texture id handed out
by `glGenTextures` (ids start at 1; 0 is the GL null texture). -/
structure TMState where
  textures : List (String × Nat)
  texture_hashes : List (String × String)
  processed_textures : List (String × Image)
  animation_frames : List (String × List Image)
  cacheDirExists : Bool
  cacheFiles : List (String × CacheData)
  glLive : List Nat
  glNext : Nat
deriving DecidableEq

def emptyState : TMState :=
  { textures := [], texture_hashes := [], processed_textures := [],
    animation_frames := [], cacheDirExists := true, cacheFiles := [],
    glLive := [], glNext := 1 }

/-- `AdvancedTextureManager._load_from_cache_preprocessed`.
`fileExists` models `os.path.exists(cache_file)`, `mtime` models
`os.path.getmtime(cache_file)` (the file modification time the source
compares against `time.time()`, here `now`), and `content` is the result
of unpickling the file (`none` when `pickle.load` raises, which the
source catches and turns into `False`).  Returns the hit/miss flag and
the updated manager state. -/
def load_from_cache_preprocessed (fileExists : Bool) (now mtime : ℚ)
    (content : Option CacheData) (s : TMState) (texture_name : String) :
    Bool × TMState :=
  if !fileExists then (false, s)
  else if now - mtime > 86400 then (false, s)
  else
    match content with
    | none => (false, s)
    | some cache_data =>
      match cache_data.image_data, cache_data.image_hash with
      | some img, some hsh =>
        (true,
          { s with
            processed_textures := setA s.processed_textures texture_name img,
            texture_hashes := setA s.texture_hashes texture_name hsh })
      | _, _ => (false, s)

theorem lookupA_setA {α : Type} (l : List (String × α)) (k : String) (v : α) :
    lookupA (setA l k v) k = some v := by
  simp [lookupA, setA]

section CacheClaims

/-- A concrete stored entry whose pickled `timestamp` field is 86401
seconds older than `now`, while the cache file itself has a fresh
modification time. -/
def cdC2 : CacheData :=
  { image_hash := some "h",
    timestamp := some (1000000 - 86400 - 1 : ℚ),
    image_data := some [[defaultPixel]] }

/-- C2 counterexample: the source checks
`time.time() - os.path.getmtime(cache_file) > 86400`, never reading the
entry's stored `timestamp` field.  An entry whose stored timestamp is
`now - 86400 - 1` (age 86401 s) but whose file modification time equals
`now` is a HIT, although the claim requires it to be a miss. -/
theorem C2_counterexample :
    (load_from_cache_preprocessed true 1000000 1000000 (some cdC2)
        emptyState "earth").1 = true ∧
      cdC2.timestamp = some (1000000 - 86400 - 1 : ℚ) := by
  constructor
  · simp [load_from_cache_preprocessed, cdC2]
    norm_num
  · rfl

/-- C2 amended: the TTL is measured from the cache FILE's modification
time, not from the stored `timestamp` field.  For an existing file whose
content deserializes with both required fields present: if
`now - mtime > 86400` the load is a miss; otherwise it is a hit and the
stored buffer is published unchanged under the asset name. -/
theorem C2_ttl_uses_mtime (now mtime : ℚ) (s : TMState)
    (texture_name : String) (cd : CacheData) (img : Image) (hsh : String)
    (himg : cd.image_data = some img) (hhsh : cd.image_hash = some hsh) :
    (now - mtime > 86400 →
      (load_from_cache_preprocessed true now mtime (some cd) s
          texture_name).1 = false) ∧
    (¬ now - mtime > 86400 →
      (load_from_cache_preprocessed true now mtime (some cd) s
          texture_name).1 = true ∧
      lookupA (load_from_cache_preprocessed true now mtime (some cd) s
          texture_name).2.processed_textures texture_name = some img) := by
  constructor
  · intro h
    simp [load_from_cache_preprocessed, h]
  · intro h
    simp [load_from_cache_preprocessed, h, himg, hhsh, lookupA_setA]

/-- C2 witness: the amended theorem applied at concrete inputs on both
sides of the file-mtime freshness boundary. -/
theorem C2_ttl_uses_mtime_witness :
    ((load_from_cache_preprocessed true 1000000 (1000000 - 86401)
        (some cdC2) emptyState "earth").1 = false) ∧
    ((load_from_cache_preprocessed true 1000000 (1000000 - 86399)
        (some cdC2) emptyState "earth").1 = true ∧
      lookupA (load_from_cache_preprocessed true 1000000 (1000000 - 86399)
          (some cdC2) emptyState "earth").2.processed_textures "earth" =
        some [[defaultPixel]]) := by
  refine ⟨?_, ?_⟩
  · exact (C2_ttl_uses_mtime 1000000 (1000000 - 86401) emptyState "earth"
      cdC2 [[defaultPixel]] "h" rfl rfl).1 (by norm_num)
  · exact (C2_ttl_uses_mtime 1000000 (1000000 - 86399) emptyState "earth"
      cdC2 [[defaultPixel]] "h" rfl rfl).2 (by norm_num)

/-- C3: a cache file that cannot be deserialized (`content = none`
models `pickle.load` raising, caught by the source) or whose content
lacks the required `image_data` or `image_hash` field yields a miss
(`false`) with the manager state unchanged; the embedding is a total
function, so no error is propagated to the caller. -/
theorem C3_corruption_is_miss (fileExists : Bool) (now mtime : ℚ)
    (content : Option CacheData) (s : TMState) (texture_name : String) :
    (content = none →
      load_from_cache_preprocessed fileExists now mtime content s
        texture_name = (false, s)) ∧
    (∀ cd, content = some cd →
      (cd.image_data = none ∨ cd.image_hash = none) →
      load_from_cache_preprocessed fileExists now mtime content s
        texture_name = (false, s)) := by
  constructor
  · rintro rfl
    cases fileExists with
    | false => rfl
    | true =>
      by_cases h : now - mtime > 86400 <;>
        simp [load_from_cache_preprocessed, h]
  · rintro cd rfl hmiss
    cases fileExists with
    | false => rfl
    | true =>
      by_cases h : now - mtime > 86400
      · simp [load_from_cache_preprocessed, h]
      · rcases hmiss with hd | hh
        · simp [load_from_cache_preprocessed, h, hd]
        · cases hdata : cd.image_data <;>
            simp [load_from_cache_preprocessed, h, hdata, hh]

/-- C3 witness: both corruption shapes at concrete inputs — an
undeserializable file and a fresh file missing the buffer field. -/
theorem C3_corruption_is_miss_witness :
    (load_from_cache_preprocessed true 1000000 1000000 none emptyState
        "earth" = (false, emptyState)) ∧
    (load_from_cache_preprocessed true 1000000 1000000
        (some { image_hash := some "h", timestamp := some 0,
                image_data := none }) emptyState "earth" =
      (false, emptyState)) := by
  refine ⟨?_, ?_⟩
  · exact (C3_corruption_is_miss true 1000000 1000000 none emptyState
      "earth").1 rfl
  · exact (C3_corruption_is_miss true 1000000 1000000
      (some { image_hash := some "h", timestamp := some 0,
              image_data := none }) emptyState "earth").2
      _ rfl (Or.inl rfl)

end CacheClaims

/-! ## Background segmentation (`_simple_background_detection`,
`_smart_background_removal_improved`) -/

/-- Per-pixel brightness: `np.sum(data[:, :, :3], axis=2)`. -/
def brightness (p : Pixel) : Nat := p.r + p.g + p.b

/-- The flattened list of all brightness values of an image. -/
def brightnessList (img : Image) : List Nat :=
  (img.map (fun row => row.map brightness)).flatten

/-- `np.percentile(values, 85)` with the default linear interpolation:
sort ascending, take the virtual index `(n - 1) * 85/100`, and linearly
interpolate between the neighbouring order statistics.  Python floats
are modelled as exact rationals; an empty input (where numpy raises) is
mapped to 0, harmless because an empty image has no pixels to mask. -/
def sortedQ (l : List Nat) : List ℚ :=
  (l.insertionSort (· ≤ ·)).map (fun k : ℕ => (k : ℚ))

/-- Floor of a rational, written out so that it evaluates by kernel
reduction (the `⌊⌋` instance of `ℚ` does not). -/
def ratFloor (q : ℚ) : ℤ := q.num / (q.den : ℤ)

/-- Ceiling of a rational, by the identity `⌈q⌉ = -⌊-q⌋`. -/
def ratCeil (q : ℚ) : ℤ := -((-q).num / ((-q).den : ℤ))

theorem ratFloor_eq (q : ℚ) : ratFloor q = ⌊q⌋ := Rat.floor_def.symm

theorem ratCeil_eq (q : ℚ) : ratCeil q = ⌈q⌉ := by
  rw [ratCeil, ← Rat.floor_def, Int.floor_neg, neg_neg]

def percentile85 (l : List Nat) : ℚ :=
  let s : List ℚ := sortedQ l
  if s.length = 0 then 0
  else
    let hq : ℚ := ((s.length : ℚ) - 1) * (85 / 100)
    let lo : Nat := (ratFloor hq).toNat
    let hi : Nat := (ratCeil hq).toNat
    s.getD lo 0 + (hq - (lo : ℚ)) * (s.getD hi 0 - s.getD lo 0)

/-- The raw threshold mask of `_simple_background_detection`:
`mask = brightness < np.percentile(brightness, 85)`. -/
def thresholdMask (img : Image) : Mask :=
  let t := percentile85 (brightnessList img)
  img.map (fun row => row.map (fun p => decide ((brightness p : ℚ) < t)))

/-- `np.ones((height, width), dtype=bool)`: the all-keep mask returned
by the outer `except` branch of `_simple_background_detection`. -/
def allKeepMask (img : Image) : Mask :=
  img.map (fun row => row.map (fun _ => true))

/-- `_simple_background_detection`, with the fallible external calls as
parameters: `npStep` is the numpy brightness/percentile threshold
computation and `openStep`/`closeStep` are the two
`cv2.morphologyEx` calls (`MORPH_OPEN` then `MORPH_CLOSE`); `none`
models the call raising.  A failing `npStep` is caught by the outer
`except`, which returns the all-keep mask; a failing morphology call is
caught by the inner `except ... pass`, which keeps the mask as it stood
at the point of failure. -/
def simple_background_detection (npStep : Image → Option Mask)
    (openStep closeStep : Mask → Option Mask) (data : Image) : Mask :=
  match npStep data with
  | none => allKeepMask data
  | some raw =>
    match openStep raw with
    | none => raw
    | some opened =>
      match closeStep opened with
      | none => opened
      | some closed => closed

/-- The non-raising instantiation of the threshold step: the numpy
calls succeed and produce the raw threshold mask. -/
def numpyThresholdStep : Image → Option Mask := fun d => some (thresholdMask d)

/-- Mask application from `_smart_background_removal_improved`:
`result_data = data.copy(); result_data[~mask, 3] = 0` — discarded
pixels get alpha 0, everything else is untouched. -/
def applyMask (data : Image) (mask : Mask) : Image :=
  List.zipWith (fun row mrow =>
      List.zipWith (fun p keep => if keep then p else { p with a := 0 })
        row mrow)
    data mask

/-- `_smart_background_removal_improved` (mask computation followed by
mask application), given the external morphology calls. -/
def smart_background_removal (openStep closeStep : Mask → Option Mask)
    (data : Image) : Image :=
  applyMask data
    (simple_background_detection numpyThresholdStep openStep closeStep data)

/-! ### Indexing helper lemmas -/

theorem getD_map_of_lt {α β : Type} (f : α → β) (l : List α) (i : Nat)
    (d : α) (d2 : β) (h : i < l.length) :
    (l.map f).getD i d2 = f (l.getD i d) := by
  rw [List.getD_eq_getElem?_getD, List.getD_eq_getElem?_getD,
    List.getElem?_map, List.getElem?_eq_getElem h]
  rfl

theorem getD_zipWith_of_lt {α β γ : Type} (f : α → β → γ) (l1 : List α)
    (l2 : List β) (i : Nat) (d1 : α) (d2 : β) (d3 : γ)
    (h1 : i < l1.length) (h2 : i < l2.length) :
    (List.zipWith f l1 l2).getD i d3 = f (l1.getD i d1) (l2.getD i d2) := by
  rw [List.getD_eq_getElem?_getD, List.getD_eq_getElem?_getD,
    List.getD_eq_getElem?_getD, List.getElem?_zipWith,
    List.getElem?_eq_getElem h1, List.getElem?_eq_getElem h2]
  rfl

theorem getD_of_all_eq {c : ℚ} (s : List ℚ) (i : Nat) (hi : i < s.length)
    (hall : ∀ x ∈ s, x = c) : s.getD i 0 = c := by
  rw [List.getD_eq_getElem?_getD, List.getElem?_eq_getElem hi]
  exact hall _ (List.getElem_mem hi)

/-- The 85th percentile of a nonempty constant list is that constant. -/
theorem percentile85_of_const (l : List Nat) (c : Nat) (hne : l ≠ [])
    (hc : ∀ x ∈ l, x = c) : percentile85 l = c := by
  have hperm := List.perm_insertionSort (α := Nat) (· ≤ ·) l
  have hlpos : 0 < l.length := List.length_pos.mpr hne
  simp only [percentile85]
  set s : List ℚ := sortedQ l with hs
  have hslen : s.length = l.length := by
    rw [hs, sortedQ, List.length_map, hperm.length_eq]
  have hsmem : ∀ x ∈ s, x = (c : ℚ) := by
    intro x hx
    rw [hs, sortedQ] at hx
    rcases List.mem_map.mp hx with ⟨k, hk, rfl⟩
    rw [hc k (hperm.mem_iff.mp hk)]
  have hs0 : ¬ s.length = 0 := by omega
  rw [if_neg hs0]
  have h1 : (1 : ℚ) ≤ (s.length : ℚ) := by
    exact_mod_cast Nat.one_le_iff_ne_zero.mpr hs0
  have hq0 : (0 : ℚ) ≤ ((s.length : ℚ) - 1) * (85 / 100) := by
    apply mul_nonneg <;> linarith
  have hqle : ((s.length : ℚ) - 1) * (85 / 100) ≤ (s.length : ℚ) - 1 := by
    apply mul_le_of_le_one_right <;> linarith
  have hcast : ((s.length : ℚ) - 1) = (((s.length : ℤ) - 1 : ℤ) : ℚ) := by
    push_cast
    ring
  have hfl : ⌊((s.length : ℚ) - 1) * (85 / 100)⌋ ≤ (s.length : ℤ) - 1 := by
    calc ⌊((s.length : ℚ) - 1) * (85 / 100)⌋
        ≤ ⌊(s.length : ℚ) - 1⌋ := Int.floor_le_floor hqle
      _ = (s.length : ℤ) - 1 := by rw [hcast, Int.floor_intCast]
  have hce : ⌈((s.length : ℚ) - 1) * (85 / 100)⌉ ≤ (s.length : ℤ) - 1 := by
    calc ⌈((s.length : ℚ) - 1) * (85 / 100)⌉
        ≤ ⌈(s.length : ℚ) - 1⌉ := Int.ceil_le_ceil hqle
      _ = (s.length : ℤ) - 1 := by rw [hcast, Int.ceil_intCast]
  have hlo : (ratFloor (((s.length : ℚ) - 1) * (85 / 100))).toNat < s.length := by
    rw [ratFloor_eq]
    have := Int.toNat_le_toNat hfl
    omega
  have hhi : (ratCeil (((s.length : ℚ) - 1) * (85 / 100))).toNat < s.length := by
    rw [ratCeil_eq]
    have := Int.toNat_le_toNat hce
    omega
  rw [getD_of_all_eq s _ hlo hsmem, getD_of_all_eq s _ hhi hsmem]
  ring

/-- Evaluation scheme for `percentile85` at concrete inputs (rational
arithmetic does not reduce inside the kernel, so concrete instances are
discharged through `norm_num` with this lemma). -/
theorem percentile85_eval (l : List Nat) (s : List ℚ) (lo hi : Nat) (q : ℚ)
    (hs : sortedQ l = s) (hn0 : ¬ s.length = 0)
    (hq : ((s.length : ℚ) - 1) * (85 / 100) = q)
    (hlo : (ratFloor q).toNat = lo) (hhi : (ratCeil q).toNat = hi) :
    percentile85 l =
      s.getD lo 0 + (q - (lo : ℚ)) * (s.getD hi 0 - s.getD lo 0) := by
  simp only [percentile85, hs]
  rw [if_neg hn0, hq, hlo, hhi]

section SegmentationClaims

/-- C4 counterexample, external-call behaviour of the opening step:
`cv2.morphologyEx(mask, MORPH_OPEN, kernel)` succeeds and (as an opening
may) erodes the lone foreground pixel away. -/
def openStepCE : Mask → Option Mask := fun _ => some [[false, false]]

/-- C4 counterexample, external-call behaviour of the closing step:
`cv2.morphologyEx(mask, MORPH_CLOSE, kernel)` raises. -/
def closeStepCE : Mask → Option Mask := fun _ => none

/-- A 1×2 image: a black pixel (brightness 0) and a grey pixel
(brightness 300); the 85th percentile of `[0, 300]` is 255, so the raw
threshold mask is `[[true, false]]`. -/
def dataC4 : Image := [[⟨0, 0, 0, 255⟩, ⟨100, 100, 100, 255⟩]]

theorem p85_dataC4 : percentile85 (brightnessList dataC4) = 255 := by
  have hb : brightnessList dataC4 = [0, 300] := rfl
  have hsort : sortedQ [0, 300] = [(0 : ℚ), 300] := by
    norm_num [sortedQ, List.insertionSort, List.orderedInsert]
  have hceil : (ratCeil (17 / 20 : ℚ)).toNat = 1 := by
    rw [ratCeil_eq]
    have h1 : ⌈(17 / 20 : ℚ)⌉ = 1 := by
      rw [Int.ceil_eq_iff]
      norm_num
    rw [h1]
    rfl
  have hfloor : (ratFloor (17 / 20 : ℚ)).toNat = 0 := by
    rw [ratFloor_eq]
    norm_num
  rw [hb, percentile85_eval [0, 300] [(0 : ℚ), 300] 0 1 (17 / 20) hsort
    (by norm_num) (by norm_num) hfloor hceil]
  norm_num

theorem thresholdMask_dataC4 : thresholdMask dataC4 = [[true, false]] := by
  simp only [thresholdMask, p85_dataC4]
  norm_num [dataC4, brightness]

/-- C4 counterexample: the two morphology calls sit in ONE
`try: ... except: pass` block, so when the opening succeeds and only
the closing raises, the mask kept is the OPENED mask, not the raw
threshold mask the claim requires. -/
theorem C4_counterexample :
    simple_background_detection numpyThresholdStep openStepCE closeStepCE
        dataC4 = [[false, false]] ∧
    thresholdMask dataC4 = [[true, false]] ∧
    simple_background_detection numpyThresholdStep openStepCE closeStepCE
        dataC4 ≠ thresholdMask dataC4 := by
  refine ⟨rfl, thresholdMask_dataC4, ?_⟩
  intro h
  rw [thresholdMask_dataC4] at h
  exact absurd h (by decide)

/-- C4 amended: segmentation always returns a mask and never propagates
an error; a failure of the threshold computation yields the all-keep
mask; if the morphological OPENING fails the raw threshold mask is
returned unmodified; but if the opening succeeds and only the CLOSING
fails, the opened mask — the mask as it stood at the failure point, not
the raw threshold mask — is returned. -/
theorem C4_segmentation_failure_modes (npStep : Image → Option Mask)
    (openStep closeStep : Mask → Option Mask) (data : Image) :
    (npStep data = none →
      simple_background_detection npStep openStep closeStep data =
        allKeepMask data) ∧
    (∀ raw, npStep data = some raw → openStep raw = none →
      simple_background_detection npStep openStep closeStep data = raw) ∧
    (∀ raw opened, npStep data = some raw → openStep raw = some opened →
      closeStep opened = none →
      simple_background_detection npStep openStep closeStep data = opened) ∧
    (∀ raw opened closed, npStep data = some raw →
      openStep raw = some opened → closeStep opened = some closed →
      simple_background_detection npStep openStep closeStep data = closed) := by
  refine ⟨?_, ?_, ?_, ?_⟩
  · intro h
    simp [simple_background_detection, h]
  · intro raw h1 h2
    simp [simple_background_detection, h1, h2]
  · intro raw opened h1 h2 h3
    simp [simple_background_detection, h1, h2, h3]
  · intro raw opened closed h1 h2 h3
    simp [simple_background_detection, h1, h2, h3]

/-- C4 witness: each failure mode of the amended theorem discharged at
concrete inputs. -/
theorem C4_segmentation_failure_modes_witness :
    (simple_background_detection (fun _ => none) openStepCE closeStepCE
        dataC4 = allKeepMask dataC4) ∧
    (simple_background_detection numpyThresholdStep (fun _ => none)
        closeStepCE dataC4 = thresholdMask dataC4) ∧
    (simple_background_detection numpyThresholdStep openStepCE closeStepCE
        dataC4 = [[false, false]]) ∧
    (simple_background_detection numpyThresholdStep openStepCE
        (fun m => some m) dataC4 = [[false, false]]) := by
  refine ⟨?_, ?_, ?_, ?_⟩
  · exact (C4_segmentation_failure_modes (fun _ => none) openStepCE
      closeStepCE dataC4).1 rfl
  · exact (C4_segmentation_failure_modes numpyThresholdStep (fun _ => none)
      closeStepCE dataC4).2.1 (thresholdMask dataC4) rfl rfl
  · exact (C4_segmentation_failure_modes numpyThresholdStep openStepCE
      closeStepCE dataC4).2.2.1 (thresholdMask dataC4) [[false, false]]
      rfl rfl rfl
  · exact (C4_segmentation_failure_modes numpyThresholdStep openStepCE
      (fun m => some m) dataC4).2.2.2 (thresholdMask dataC4)
      [[false, false]] [[false, false]] rfl rfl rfl

/-- C5: the threshold mask keeps exactly the pixels whose brightness is
strictly below the 85th percentile of brightness over the whole image;
applying the mask leaves kept pixels unchanged and maps each discarded
pixel to the same RGB with alpha 0. -/
theorem C5_threshold_mask_and_application (img : Image) (y x : Nat)
    (hy : y < img.length) (hx : x < (img.getD y []).length) :
    (maskAt (thresholdMask img) y x = true ↔
      ((brightness (pixelAt img y x) : ℚ) <
        percentile85 (brightnessList img))) ∧
    (maskAt (thresholdMask img) y x = true →
      pixelAt (applyMask img (thresholdMask img)) y x = pixelAt img y x) ∧
    (maskAt (thresholdMask img) y x = false →
      pixelAt (applyMask img (thresholdMask img)) y x =
        { pixelAt img y x with a := 0 }) := by
  have hmask : maskAt (thresholdMask img) y x =
      decide ((brightness (pixelAt img y x) : ℚ) <
        percentile85 (brightnessList img)) := by
    simp only [maskAt, thresholdMask]
    rw [getD_map_of_lt _ img y ([] : List Pixel) ([] : List Bool) hy,
      getD_map_of_lt _ _ x defaultPixel true hx]
    rfl
  have hmlen : y < (thresholdMask img).length := by
    simpa [thresholdMask] using hy
  have hmrowlen : x < ((thresholdMask img).getD y []).length := by
    simp only [thresholdMask]
    rw [getD_map_of_lt _ img y ([] : List Pixel) ([] : List Bool) hy,
      List.length_map]
    exact hx
  have happ : pixelAt (applyMask img (thresholdMask img)) y x =
      (if maskAt (thresholdMask img) y x = true then pixelAt img y x
       else { pixelAt img y x with a := 0 }) := by
    simp only [pixelAt, applyMask, maskAt, pget]
    rw [getD_zipWith_of_lt _ img (thresholdMask img) y ([] : List Pixel)
      ([] : List Bool) ([] : List Pixel) hy hmlen,
      getD_zipWith_of_lt _ _ _ x defaultPixel true defaultPixel hx hmrowlen]
  refine ⟨?_, ?_, ?_⟩
  · rw [hmask]
    exact decide_eq_true_iff
  · intro h
    rw [happ, if_pos h]
  · intro h
    rw [happ, if_neg (by simp [h])]

/-- C5 witness: on the 1×2 image `dataC4`, the dark pixel is kept
unchanged and the bright pixel gets alpha 0. -/
theorem C5_threshold_mask_and_application_witness :
    (pixelAt (applyMask dataC4 (thresholdMask dataC4)) 0 0 =
      pixelAt dataC4 0 0) ∧
    (pixelAt (applyMask dataC4 (thresholdMask dataC4)) 0 1 =
      { pixelAt dataC4 0 1 with a := 0 }) := by
  refine ⟨?_, ?_⟩
  · exact (C5_threshold_mask_and_application dataC4 0 0 (by decide)
      (by decide)).2.1 (by rw [thresholdMask_dataC4]; rfl)
  · exact (C5_threshold_mask_and_application dataC4 0 1 (by decide)
      (by decide)).2.2 (by rw [thresholdMask_dataC4]; rfl)

/-- C10: on a uniformly-coloured (nonempty) image every pixel has the
same brightness, the 85th percentile equals that brightness, the strict
comparison keeps nothing, and applying the mask zeroes every alpha while
leaving RGB unchanged. -/
theorem C10_uniform_image_fully_transparent (w h : Nat) (p : Pixel)
    (hw : 1 ≤ w) (hh : 1 ≤ h) :
    thresholdMask (List.replicate h (List.replicate w p)) =
      List.replicate h (List.replicate w false) ∧
    applyMask (List.replicate h (List.replicate w p))
        (thresholdMask (List.replicate h (List.replicate w p))) =
      List.replicate h (List.replicate w { p with a := 0 }) := by
  have hbl : brightnessList (List.replicate h (List.replicate w p)) =
      List.replicate (h * w) (brightness p) := by
    simp [brightnessList, List.map_replicate]
  have hp85 : percentile85
      (brightnessList (List.replicate h (List.replicate w p))) =
      (brightness p : ℚ) := by
    rw [hbl]
    exact_mod_cast percentile85_of_const _ (brightness p)
      (by
        apply List.length_pos.mp
        rw [List.length_replicate]
        exact Nat.mul_pos (by omega) (by omega))
      (fun x hx => (List.eq_of_mem_replicate hx))
  have hmask : thresholdMask (List.replicate h (List.replicate w p)) =
      List.replicate h (List.replicate w false) := by
    simp [thresholdMask, hp85, List.map_replicate]
  refine ⟨hmask, ?_⟩
  rw [hmask]
  simp [applyMask, List.zipWith_replicate']

/-- C10 witness: a concrete 2×2 uniform grey image comes out fully
transparent with RGB untouched. -/
theorem C10_uniform_image_fully_transparent_witness :
    thresholdMask (List.replicate 2 (List.replicate 2
        (⟨7, 8, 9, 255⟩ : Pixel))) =
      List.replicate 2 (List.replicate 2 false) ∧
    applyMask (List.replicate 2 (List.replicate 2 (⟨7, 8, 9, 255⟩ : Pixel)))
        (thresholdMask (List.replicate 2 (List.replicate 2
          (⟨7, 8, 9, 255⟩ : Pixel)))) =
      List.replicate 2 (List.replicate 2 (⟨7, 8, 9, 0⟩ : Pixel)) :=
  C10_uniform_image_fully_transparent 2 2 ⟨7, 8, 9, 255⟩
    (by decide) (by decide)

end SegmentationClaims

/-! ## Seam blending (`_process_texture_edges`) -/

/-- `tuple(int((left_pixel[i] + right_pixel[i]) / 2) for i in range(4))`:
per-channel average of two pixels, `int(...)` truncating towards zero
(floor, as both summands are nonnegative). -/
def mixPixel (p q : Pixel) : Pixel :=
  ⟨(p.r + q.r) / 2, (p.g + q.g) / 2, (p.b + q.b) / 2, (p.a + q.a) / 2⟩

/-- `edge_width = min(10, width // 20)`. -/
def edge_width (w : Nat) : Nat := min 10 (w / 20)

/-- The left-edge loop of `_process_texture_edges`, restricted to one
row: for `x in range(edge_width)` write
`avg(image[x], image[width - edge_width + x])` at column `x`.  Every
read is from the original row `orig`; writes go into the copy `cur`. -/
def blendLeftRow (w ew : Nat) (orig cur : List Pixel) : List Pixel :=
  (List.range ew).foldl
    (fun row x =>
      row.set x (mixPixel (pget orig x) (pget orig (w - ew + x))))
    cur

/-- One pass (one value of the outer variable `x`) of the right-edge
loop on one row: for `x_pos in range(width - edge_width, width)` write
`avg(image[x], image[x_pos])` at column `x_pos`. -/
def blendRightPass (w ew x : Nat) (orig cur : List Pixel) : List Pixel :=
  (List.range ew).foldl
    (fun row i =>
      row.set (w - ew + i)
        (mixPixel (pget orig x) (pget orig (w - ew + i))))
    cur

/-- The right-edge loops of `_process_texture_edges` on one row: the
source nests `for x in range(edge_width)` OUTSIDE the loop over the
band columns, so the whole band is rewritten once per value of `x`. -/
def blendRightRow (w ew : Nat) (orig cur : List Pixel) : List Pixel :=
  (List.range ew).foldl (fun row x => blendRightPass w ew x orig row) cur

/-- `_process_texture_edges`.  The source loops columns on the outside
and rows innermost, but every write address `(column, y)` is distinct
and every read comes from the unmodified input image, so the loops act
independently on each row and the embedding traverses row-wise.  The
`texture_name` argument is used by the source only in its error log,
never in the computation. -/
def process_texture_edges (image : Image) (texture_name : String) : Image :=
  let w := width image
  let ew := edge_width w
  image.map (fun row => blendRightRow w ew row (blendLeftRow w ew row row))

/-! ### Foldl-of-writes lemmas -/

theorem length_foldl_set (g : Nat → Nat) (v : Nat → Pixel) (L : List Nat)
    (s : List Pixel) :
    (L.foldl (fun row i => row.set (g i) (v i)) s).length = s.length := by
  induction L generalizing s with
  | nil => rfl
  | cons a t ih => rw [List.foldl_cons, ih, List.length_set]

theorem getD_foldl_set_of_ne (g : Nat → Nat) (v : Nat → Pixel) (L : List Nat)
    (s : List Pixel) (j : Nat) (h : ∀ i ∈ L, g i ≠ j) :
    (L.foldl (fun row i => row.set (g i) (v i)) s).getD j defaultPixel =
      s.getD j defaultPixel := by
  induction L generalizing s with
  | nil => rfl
  | cons a t ih =>
    rw [List.foldl_cons, ih _ (fun i hi => h i (List.mem_cons_of_mem a hi)),
      List.getD_eq_getElem?_getD, List.getD_eq_getElem?_getD,
      List.getElem?_set_ne (h a (List.mem_cons_self a t))]

theorem getD_foldl_set_range (g : Nat → Nat) (v : Nat → Pixel) :
    ∀ (n : Nat) (s : List Pixel) (j : Nat), j < n →
      (∀ i, i < n → ∀ k, k < n → g i = g k → i = k) →
      g j < s.length →
      ((List.range n).foldl (fun row i => row.set (g i) (v i)) s).getD (g j)
        defaultPixel = v j := by
  intro n
  induction n with
  | zero =>
    intro s j hj _ _
    omega
  | succ m ih =>
    intro s j hj hginj hlen
    rw [List.range_succ, List.foldl_append, List.foldl_cons, List.foldl_nil]
    by_cases hjm : j = m
    · rw [hjm]
      rw [hjm] at hlen
      have hl : g m <
          ((List.range m).foldl (fun row i => row.set (g i) (v i)) s).length := by
        rw [length_foldl_set]
        exact hlen
      rw [List.getD_eq_getElem?_getD, List.getElem?_set_self hl]
      rfl
    · have hne : g m ≠ g j := by
        intro he
        exact hjm (hginj j hj m (by omega) he.symm)
      rw [List.getD_eq_getElem?_getD, List.getElem?_set_ne hne,
        ← List.getD_eq_getElem?_getD]
      exact ih s j (by omega)
        (fun i hi k hk he => hginj i (by omega) k (by omega) he) hlen

theorem getD_foldl_rightPass_of_ne (w ew : Nat) (orig : List Pixel)
    (L : List Nat) (cur : List Pixel) (j : Nat)
    (h : ∀ i, i < ew → w - ew + i ≠ j) :
    (L.foldl (fun row x => blendRightPass w ew x orig row) cur).getD j
      defaultPixel = cur.getD j defaultPixel := by
  induction L generalizing cur with
  | nil => rfl
  | cons a t ih =>
    rw [List.foldl_cons, ih, blendRightPass, getD_foldl_set_of_ne]
    intro i hi
    exact h i (List.mem_range.mp hi)

theorem length_blendLeftRow (w ew : Nat) (orig cur : List Pixel) :
    (blendLeftRow w ew orig cur).length = cur.length :=
  length_foldl_set _ _ _ _

theorem length_foldl_rightPass (w ew : Nat) (orig : List Pixel)
    (L : List Nat) (cur : List Pixel) :
    (L.foldl (fun row x => blendRightPass w ew x orig row) cur).length =
      cur.length := by
  induction L generalizing cur with
  | nil => rfl
  | cons a t ih => rw [List.foldl_cons, ih, blendRightPass, length_foldl_set]

/-- What one row of `_process_texture_edges` computes on the left band. -/
theorem blendRow_left_band (w ew : Nat) (orig : List Pixel) (x : Nat)
    (hx : x < ew) (h2 : 2 * ew ≤ w) (hlen : orig.length = w) :
    (blendRightRow w ew orig (blendLeftRow w ew orig orig)).getD x
      defaultPixel = mixPixel (pget orig x) (pget orig (w - ew + x)) := by
  rw [blendRightRow, getD_foldl_rightPass_of_ne]
  · have hxw : x < orig.length := by omega
    have := getD_foldl_set_range (fun i => i)
      (fun i => mixPixel (pget orig i) (pget orig (w - ew + i))) ew orig x hx
      (fun i _ k _ he => he) hxw
    exact this
  · intro i hi
    omega

/-- What one row of `_process_texture_edges` computes on the right
band: every band pixel is averaged with column `ew - 1`, because the
final pass of the outer loop overwrites all previous passes. -/
theorem blendRow_right_band (w ew : Nat) (orig : List Pixel) (j : Nat)
    (hj : j < ew) (h2 : 2 * ew ≤ w) (hlen : orig.length = w) :
    (blendRightRow w ew orig (blendLeftRow w ew orig orig)).getD (w - ew + j)
      defaultPixel =
      mixPixel (pget orig (ew - 1)) (pget orig (w - ew + j)) := by
  obtain ⟨m, rfl⟩ : ∃ m, ew = m + 1 := ⟨ew - 1, by omega⟩
  rw [blendRightRow, List.range_succ, List.foldl_append, List.foldl_cons,
    List.foldl_nil, blendRightPass]
  have hlen2 : w - (m + 1) + j <
      ((List.range m).foldl
        (fun row x => blendRightPass w (m + 1) x orig row)
        (blendLeftRow w (m + 1) orig orig)).length := by
    rw [length_foldl_rightPass, length_blendLeftRow]
    omega
  have := getD_foldl_set_range (fun i => w - (m + 1) + i)
    (fun i => mixPixel (pget orig m) (pget orig (w - (m + 1) + i))) (m + 1)
    _ j hj
    (fun i hi k hk he => by
      have he2 : w - (m + 1) + i = w - (m + 1) + k := he
      omega)
    hlen2
  simpa using this

section SeamClaims

/-- A 1×60 image (so `edge_width = min(10, 60 / 20) = 3`): all pixels
zero except column 2 (the last left-band column) with red 200 and
column 58 (a right-band column) with red 10. -/
def rowC6 : List Pixel :=
  ((List.replicate 60 defaultPixel).set 2 ⟨200, 0, 0, 0⟩).set 58
    ⟨10, 0, 0, 0⟩

def imageC6 : Image := [rowC6]

/-- C6 counterexample: the right-band pixel at column 58 comes out as
the average of itself and column 2 (`edge_width - 1`), not of itself
and its mirrored counterpart, which is column 1 both under the
wrap-around pairing `x_pos - (width - edge_width)` and under the
reflection pairing `width - 1 - x_pos`.  The source's right-edge loop
nests `for x in range(edge_width)` around the band loop, so the last
pass `x = edge_width - 1` overwrites every band pixel. -/
theorem C6_counterexample :
    pixelAt (process_texture_edges imageC6 "earth") 0 58 =
      ⟨105, 0, 0, 0⟩ ∧
    mixPixel (pixelAt imageC6 0 58) (pixelAt imageC6 0 1) =
      ⟨5, 0, 0, 0⟩ ∧
    pixelAt (process_texture_edges imageC6 "earth") 0 58 ≠
      mixPixel (pixelAt imageC6 0 58) (pixelAt imageC6 0 1) := by
  refine ⟨by decide, by decide, by decide⟩

/-- C6 amended: the seam blend uses an edge band of width
`min(10, w / 20)`; each row's left-band pixel at column `x` becomes the
average of itself and the pixel at column `w - ew + x`; but each
right-band pixel becomes the average of itself and the single column
`ew - 1` (the last left-band column), not of its mirrored counterpart. -/
theorem C6_seam_blend_bands (image : Image) (texture_name : String)
    (y : Nat) (hy : y < image.length)
    (hrect : ∀ row ∈ image, row.length = width image) :
    (∀ x, x < edge_width (width image) →
      pixelAt (process_texture_edges image texture_name) y x =
        mixPixel (pixelAt image y x)
          (pixelAt image y
            (width image - edge_width (width image) + x))) ∧
    (∀ j, j < edge_width (width image) →
      pixelAt (process_texture_edges image texture_name) y
          (width image - edge_width (width image) + j) =
        mixPixel (pixelAt image y (edge_width (width image) - 1))
          (pixelAt image y
            (width image - edge_width (width image) + j))) := by
  have hrowmem : image.getD y [] ∈ image := by
    rw [List.getD_eq_getElem?_getD, List.getElem?_eq_getElem hy]
    exact List.getElem_mem hy
  have hrowlen : (image.getD y []).length = width image :=
    hrect _ hrowmem
  have h2 : 2 * edge_width (width image) ≤ width image := by
    have h1 := Nat.min_le_right 10 (width image / 20)
    rw [edge_width]
    omega
  have hproc : ∀ z, pixelAt (process_texture_edges image texture_name) y z =
      (blendRightRow (width image) (edge_width (width image))
        (image.getD y [])
        (blendLeftRow (width image) (edge_width (width image))
          (image.getD y []) (image.getD y []))).getD z defaultPixel := by
    intro z
    simp only [pixelAt, process_texture_edges, pget]
    rw [getD_map_of_lt _ image y ([] : List Pixel) ([] : List Pixel) hy]
  constructor
  · intro x hx
    rw [hproc x, blendRow_left_band _ _ _ x hx h2 hrowlen]
    rfl
  · intro j hj
    rw [hproc _, blendRow_right_band _ _ _ j hj h2 hrowlen]
    rfl

/-- C6 witness: the amended band behaviour checked on the concrete
1×60 image — column 0 of the left band and column 58 of the right
band. -/
theorem C6_seam_blend_bands_witness :
    pixelAt (process_texture_edges imageC6 "earth") 0 0 =
      mixPixel (pixelAt imageC6 0 0) (pixelAt imageC6 0 57) ∧
    pixelAt (process_texture_edges imageC6 "earth") 0 58 =
      mixPixel (pixelAt imageC6 0 2) (pixelAt imageC6 0 58) := by
  constructor
  · exact (C6_seam_blend_bands imageC6 "earth" 0 (by decide)
      (by decide)).1 0 (by decide)
  · exact (C6_seam_blend_bands imageC6 "earth" 0 (by decide)
      (by decide)).2 1 (by decide)

/-- C7: the seam blend is deterministic — it is a (pure, total)
function of the input pixel data alone.  In particular the
`texture_name` argument, which the source consults only in its
exception log, has no effect on the output, and two applications to
the same input bytes agree definitionally. -/
theorem C7_seam_blend_deterministic (image : Image) (n1 n2 : String) :
    process_texture_edges image n1 = process_texture_edges image n2 := rfl

end SeamClaims

/-! ## Tone enhancement (`_enhance_texture_safe`) -/

/-- The four PIL `ImageEnhance` operations, as external calls: each
takes the image and the enhancement factor; `none` models `enhance`
raising, which the source catches branch by branch. -/
structure EnhanceOps where
  brightness : Image → ℚ → Option Image
  contrast : Image → ℚ → Option Image
  color : Image → ℚ → Option Image
  sharpness : Image → ℚ → Option Image

/-- The per-asset-key adjustment chain of `_enhance_texture_safe`
(after the edge-processing call): sun ↦ brightness 1.3 then contrast
1.2 (both inside ONE try block), earth ↦ color 1.4, mars ↦ color 1.5,
jupiter ↦ contrast 1.3, saturn ↦ sharpness 1.2; any other key leaves
the buffer untouched.  A `none` result models the adjustment raising:
the branch's `except` keeps `image` as it stood, and for sun a failure
of the first adjustment also skips the second, since both statements
share the try block. -/
def enhance_adjustments (ops : EnhanceOps) (image : Image)
    (texture_name : String) : Image :=
  if texture_name = "sun" then
    match ops.brightness image (1.3 : ℚ) with
    | none => image
    | some i1 =>
      match ops.contrast i1 (1.2 : ℚ) with
      | none => i1
      | some i2 => i2
  else if texture_name = "earth" then
    match ops.color image (1.4 : ℚ) with
    | none => image
    | some i => i
  else if texture_name = "mars" then
    match ops.color image (1.5 : ℚ) with
    | none => image
    | some i => i
  else if texture_name = "jupiter" then
    match ops.contrast image (1.3 : ℚ) with
    | none => image
    | some i => i
  else if texture_name = "saturn" then
    match ops.sharpness image (1.2 : ℚ) with
    | none => image
    | some i => i
  else image

/-- `_enhance_texture_safe`: first `_process_texture_edges`, then the
per-asset adjustment chain. -/
def enhance_texture_safe (ops : EnhanceOps) (image : Image)
    (texture_name : String) : Image :=
  enhance_adjustments ops (process_texture_edges image texture_name)
    texture_name

section EnhancerClaims

def imgC8 : Image := [[⟨1, 2, 3, 4⟩]]

def imgC8b : Image := [[⟨9, 9, 9, 9⟩]]

/-- C8 counterexample ops: brightness raises; contrast succeeds and
visibly changes the buffer; the other operations are identities. -/
def opsC8 : EnhanceOps :=
  { brightness := fun _ _ => none,
    contrast := fun _ _ => some imgC8b,
    color := fun i _ => some i,
    sharpness := fun i _ => some i }

/-- C8 counterexample: for the sun recipe (brightness then contrast in
one try block), a brightness failure makes the source skip the contrast
adjustment entirely instead of continuing with it: the result is the
untouched input even though the contrast adjustment would have
succeeded and produced a different buffer. -/
theorem C8_counterexample :
    enhance_adjustments opsC8 imgC8 "sun" = imgC8 ∧
    opsC8.contrast imgC8 (1.2 : ℚ) = some imgC8b ∧
    imgC8b ≠ imgC8 := by
  refine ⟨rfl, rfl, by decide⟩

/-- C8 amended: the enhancer applies the fixed per-asset table; unknown
keys pass through unchanged; a failing adjustment keeps the buffer as
it stood before that adjustment (so prior successes are retained), but
the remaining adjustments of that key's recipe are SKIPPED rather than
continued (observable only for sun, the sole key with two
adjustments). -/
theorem C8_enhancer_table (ops : EnhanceOps) (image : Image) :
    (∀ texture_name,
      texture_name ∉ (["sun", "earth", "mars", "jupiter", "saturn"] :
        List String) →
      enhance_adjustments ops image texture_name = image) ∧
    (ops.brightness image (1.3 : ℚ) = none →
      enhance_adjustments ops image "sun" = image) ∧
    (∀ i1, ops.brightness image (1.3 : ℚ) = some i1 →
      ops.contrast i1 (1.2 : ℚ) = none →
      enhance_adjustments ops image "sun" = i1) ∧
    (∀ i1 i2, ops.brightness image (1.3 : ℚ) = some i1 →
      ops.contrast i1 (1.2 : ℚ) = some i2 →
      enhance_adjustments ops image "sun" = i2) ∧
    (∀ i, ops.color image (1.4 : ℚ) = some i →
      enhance_adjustments ops image "earth" = i) ∧
    (ops.color image (1.4 : ℚ) = none →
      enhance_adjustments ops image "earth" = image) ∧
    (∀ i, ops.color image (1.5 : ℚ) = some i →
      enhance_adjustments ops image "mars" = i) ∧
    (ops.color image (1.5 : ℚ) = none →
      enhance_adjustments ops image "mars" = image) ∧
    (∀ i, ops.contrast image (1.3 : ℚ) = some i →
      enhance_adjustments ops image "jupiter" = i) ∧
    (ops.contrast image (1.3 : ℚ) = none →
      enhance_adjustments ops image "jupiter" = image) ∧
    (∀ i, ops.sharpness image (1.2 : ℚ) = some i →
      enhance_adjustments ops image "saturn" = i) ∧
    (ops.sharpness image (1.2 : ℚ) = none →
      enhance_adjustments ops image "saturn" = image) := by
  refine ⟨?_, ?_, ?_, ?_, ?_, ?_, ?_, ?_, ?_, ?_, ?_, ?_⟩
  · intro t ht
    simp only [List.mem_cons, List.not_mem_nil, or_false] at ht
    push_neg at ht
    obtain ⟨h1, h2, h3, h4, h5⟩ := ht
    simp [enhance_adjustments, h1, h2, h3, h4, h5]
  · intro h
    simp [enhance_adjustments, h]
  · intro i1 h1 h2
    simp [enhance_adjustments, h1, h2]
  · intro i1 i2 h1 h2
    simp [enhance_adjustments, h1, h2]
  · intro i h
    simp [enhance_adjustments, h]
  · intro h
    simp [enhance_adjustments, h]
  · intro i h
    simp [enhance_adjustments, h]
  · intro h
    simp [enhance_adjustments, h]
  · intro i h
    simp [enhance_adjustments, h]
  · intro h
    simp [enhance_adjustments, h]
  · intro i h
    simp [enhance_adjustments, h]
  · intro h
    simp [enhance_adjustments, h]

/-- C8 witness: the amended table behaviour at concrete inputs — an
unknown key passes through, a failed sun brightness keeps the input
and skips contrast, and the identity colour adjustment for earth
returns the input. -/
theorem C8_enhancer_table_witness :
    enhance_adjustments opsC8 imgC8 "venus" = imgC8 ∧
    enhance_adjustments opsC8 imgC8 "sun" = imgC8 ∧
    enhance_adjustments opsC8 imgC8 "earth" = imgC8 := by
  refine ⟨?_, ?_, ?_⟩
  · exact (C8_enhancer_table opsC8 imgC8).1 "venus" (by decide)
  · exact (C8_enhancer_table opsC8 imgC8).2.1 rfl
  · exact (C8_enhancer_table opsC8 imgC8).2.2.2.2.1 imgC8 rfl

end EnhancerClaims

/-! ## Registry, GL handles, cache directory (`cleanup`, `clear_cache`,
`_load_texture_to_opengl`, `_load_to_opengl_main_thread`) -/

/-- `clear_cache`: `shutil.rmtree(self.cache_dir)` followed by
`os.makedirs(self.cache_dir)` — every cache entry is deleted and the
directory is recreated empty. -/
def clear_cache (s : TMState) : TMState :=
  { s with cacheFiles := [], cacheDirExists := true }

/-- One iteration of the deletion loop in `cleanup`:
`if texture_id and glIsTexture(texture_id):
glDeleteTextures([texture_id])`. -/
def glDeleteIfLive (live : List Nat) (texture_id : Nat) : List Nat :=
  if texture_id ≠ 0 ∧ texture_id ∈ live then
    live.filter (fun x => ¬ (x = texture_id))
  else live

/-- `cleanup`: deletes the GL texture object of every entry of the
`textures` dict, clears `processed_textures` and `animation_frames`,
then calls `clear_cache` (removing the on-disk cache entries).  The
`textures` dict itself is not cleared by the source, and GL textures
that exist but are not recorded in the dict are not deleted. -/
def cleanup (s : TMState) : TMState :=
  clear_cache
    { s with
      glLive := (s.textures.map Prod.snd).foldl glDeleteIfLive s.glLive,
      processed_textures := [],
      animation_frames := [] }

/-- `_load_texture_to_opengl`: `glGenTextures(1)` hands out a fresh
texture object (modelled by the `glNext` counter; the subsequent bind
makes it live), the pixel data is uploaded, and `glError` models
`glGetError()` reporting a failure afterwards, in which case the
function returns `None` — without deleting the texture object it just
created. -/
def load_texture_to_opengl (glError : Bool) (s : TMState) :
    Option Nat × TMState :=
  let texture_id := s.glNext
  let s1 := { s with glNext := texture_id + 1,
                     glLive := texture_id :: s.glLive }
  if glError then (none, s1) else (some texture_id, s1)

/-- `_load_to_opengl_main_thread`: on the "cached" sentinel result it
returns immediately; otherwise it requires a preprocessed image for
the name, creates a GL texture and publishes it under the asset name
(`self.textures[texture_name] = texture_id`).  The previously
registered handle for that name, if any, is NOT released. -/
def load_to_opengl_main_thread (preprocessed_cached glError : Bool)
    (s : TMState) (texture_name : String) : Bool × TMState :=
  if preprocessed_cached then (true, s)
  else
    match lookupA s.processed_textures texture_name with
    | none => (false, s)
    | some _ =>
      match load_texture_to_opengl glError s with
      | (none, s1) => (false, s1)
      | (some texture_id, s1) =>
        (true,
          { s1 with textures := setA s1.textures texture_name texture_id })

theorem mem_of_mem_glDeleteIfLive (live : List Nat) (a texture_id : Nat)
    (h : a ∈ glDeleteIfLive live texture_id) : a ∈ live := by
  by_cases hc : texture_id ≠ 0 ∧ texture_id ∈ live
  · rw [glDeleteIfLive, if_pos hc] at h
    exact (List.mem_filter.mp h).1
  · rwa [glDeleteIfLive, if_neg hc] at h

theorem not_mem_glDeleteIfLive_self (live : List Nat) (texture_id : Nat)
    (h0 : texture_id ≠ 0) : texture_id ∉ glDeleteIfLive live texture_id := by
  by_cases hc : texture_id ≠ 0 ∧ texture_id ∈ live
  · rw [glDeleteIfLive, if_pos hc]
    intro hmem
    have h2 := (List.mem_filter.mp hmem).2
    simp at h2
  · rw [glDeleteIfLive, if_neg hc]
    intro hmem
    exact hc ⟨h0, hmem⟩

theorem foldl_glDelete_preserves_not_mem (L : List Nat) (live : List Nat)
    (a : Nat) (h : a ∉ live) : a ∉ L.foldl glDeleteIfLive live := by
  induction L generalizing live with
  | nil => exact h
  | cons b t ih =>
    rw [List.foldl_cons]
    exact ih _ (fun hmem => h (mem_of_mem_glDeleteIfLive _ _ _ hmem))

theorem foldl_glDelete_removes (L : List Nat) (live : List Nat) (a : Nat)
    (ha : a ∈ L) (h0 : a ≠ 0) : a ∉ L.foldl glDeleteIfLive live := by
  induction L generalizing live with
  | nil => cases ha
  | cons b t ih =>
    rw [List.foldl_cons]
    rcases List.mem_cons.mp ha with hab | hat
    · subst hab
      exact foldl_glDelete_preserves_not_mem t _ a
        (not_mem_glDeleteIfLive_self live a h0)
    · exact ih _ hat

section RegistryClaims

def imgReg : Image := [[⟨5, 5, 5, 255⟩]]

def cdC1 : CacheData :=
  { image_hash := some "h", timestamp := some 0, image_data := some imgReg }

/-- A reachable pre-shutdown state: one cache entry on disk, and one
live GL texture object (id 5) that is no longer recorded in the
`textures` dict — `bind_animated_texture` creates such unrecorded
temporaries every call, and re-registering an asset leaks the replaced
handle the same way. -/
def sC1 : TMState :=
  { emptyState with
    cacheFiles := [("earth", cdC1)], glLive := [5], glNext := 6 }

/-- C1 counterexample: `cleanup` calls `clear_cache`, which
`shutil.rmtree`s the cache directory — the on-disk cache entries are
NOT left untouched; and the live but unrecorded texture object 5
survives, so not every live handle is released. -/
theorem C1_counterexample :
    (cleanup sC1).cacheFiles = [] ∧
    sC1.cacheFiles.length = 1 ∧
    5 ∈ (cleanup sC1).glLive := by
  refine ⟨rfl, rfl, by decide⟩

/-- C1 amended: `cleanup` releases every nonzero handle recorded in the
`textures` registry (unrecorded live handles are not touched), clears
the in-memory processed buffers and animation frames, and DELETES all
entries of the on-disk cache directory, recreating the directory
empty. -/
theorem C1_cleanup_effects (s : TMState) :
    (∀ texture_name texture_id,
      (texture_name, texture_id) ∈ s.textures → texture_id ≠ 0 →
      texture_id ∉ (cleanup s).glLive) ∧
    (cleanup s).processed_textures = [] ∧
    (cleanup s).animation_frames = [] ∧
    (cleanup s).cacheFiles = [] ∧
    (cleanup s).cacheDirExists = true := by
  refine ⟨?_, rfl, rfl, rfl, rfl⟩
  intro texture_name texture_id hmem h0
  have hid : texture_id ∈ s.textures.map Prod.snd :=
    List.mem_map_of_mem Prod.snd hmem
  exact foldl_glDelete_removes _ _ _ hid h0

def sC1b : TMState :=
  { emptyState with
    textures := [("earth", 7)], glLive := [7], glNext := 8,
    cacheFiles := [("earth", cdC1)] }

/-- C1 witness: on a state with a registered live handle and a cache
entry, cleanup deletes the handle and empties the cache directory. -/
theorem C1_cleanup_effects_witness :
    7 ∉ (cleanup sC1b).glLive ∧ (cleanup sC1b).cacheFiles = [] :=
  ⟨(C1_cleanup_effects sC1b).1 "earth" 7 (by decide) (by decide),
    (C1_cleanup_effects sC1b).2.2.2.1⟩

def sReg : TMState :=
  { emptyState with processed_textures := [("earth", imgReg)] }

/-- C9 counterexample: loading "earth" twice allocates GL texture 1
then GL texture 2; after the second registration the registry maps
"earth" to 2 while texture 1 is STILL live — the prior handle was not
released before (or when) the new one was published. -/
theorem C9_counterexample :
    lookupA (load_to_opengl_main_thread false false sReg "earth").2.textures
      "earth" = some 1 ∧
    lookupA
      (load_to_opengl_main_thread false false
        (load_to_opengl_main_thread false false sReg "earth").2
        "earth").2.textures "earth" = some 2 ∧
    1 ∈ (load_to_opengl_main_thread false false
        (load_to_opengl_main_thread false false sReg "earth").2
        "earth").2.glLive ∧
    (1 : Nat) ≠ 2 := by
  refine ⟨rfl, rfl, by decide, by decide⟩

/-- C9 amended: the registry (a dict) maps each asset name to at most
one current handle, and publishing replaces the mapping with the fresh
handle — but the previously registered handle is NOT released: it stays
in the set of live GL texture objects after the re-registration. -/
theorem C9_no_release_on_reregister (s : TMState) (texture_name : String)
    (img : Image) (old : Nat)
    (hproc : lookupA s.processed_textures texture_name = some img)
    (hold : lookupA s.textures texture_name = some old)
    (holdlive : old ∈ s.glLive) (hfresh : s.glNext ∉ s.glLive) :
    (load_to_opengl_main_thread false false s texture_name).1 = true ∧
    lookupA
      (load_to_opengl_main_thread false false s texture_name).2.textures
      texture_name = some s.glNext ∧
    old ∈ (load_to_opengl_main_thread false false s texture_name).2.glLive ∧
    old ≠ s.glNext := by
  have hne : old ≠ s.glNext := fun h => hfresh (h ▸ holdlive)
  refine ⟨?_, ?_, ?_, hne⟩
  · simp [load_to_opengl_main_thread, hproc, load_texture_to_opengl]
  · simp [load_to_opengl_main_thread, hproc, load_texture_to_opengl,
      lookupA_setA]
  · simp [load_to_opengl_main_thread, hproc, load_texture_to_opengl,
      holdlive]

def sRegOld : TMState :=
  { emptyState with
    processed_textures := [("earth", imgReg)],
    textures := [("earth", 1)], glLive := [1], glNext := 2 }

/-- C9 witness: re-registering "earth" over handle 1 publishes handle 2
and leaves handle 1 live. -/
theorem C9_no_release_on_reregister_witness :
    lookupA (load_to_opengl_main_thread false false sRegOld "earth").2.textures
      "earth" = some 2 ∧
    1 ∈ (load_to_opengl_main_thread false false sRegOld "earth").2.glLive := by
  have h := C9_no_release_on_reregister sRegOld "earth" imgReg 1 rfl rfl
    (by decide) (by decide)
  exact ⟨h.2.1, h.2.2.1⟩

end RegistryClaims

end SolarTex
